import Mathlib

/-!
Shallow embedding of the KodeCamp-task-grader rubric-driven evaluation
pipeline, and proofs of the specification claims about it.

Python floats are modelled as rationals (ℚ), Python dicts with fixed small
key sets as association lists, and Python exceptions as `Except` results.
-/

namespace TaskGrader

/-- Renders a rational the way the embedding prints numbers inside error
messages (integers without a denominator, otherwise num/den). -/
def ratStr (q : ℚ) : String :=
  if q.den = 1 then toString q.num else toString q.num ++ "/" ++ toString q.den

/-- Joins a list of strings with a separator (used to render lists of ids or
keys inside error messages). -/
def joinWith (sep : String) : List String → String
  | [] => ""
  | [x] => x
  | x :: y :: xs => x ++ sep ++ joinWith sep (y :: xs)

/-- The data of an appended string is the appended data. -/
theorem data_append (a b : String) : (a ++ b).data = a.data ++ b.data := by
  cases a
  cases b
  rfl

/-- Every member of a joined list occurs inside the joined string. -/
theorem mem_joinWith_substr (sep : String) (l : List String) (x : String)
    (h : x ∈ l) : x.data <:+: (joinWith sep l).data := by
  induction l with
  | nil => cases h
  | cons a t ih =>
    cases t with
    | nil =>
      rcases List.mem_singleton.mp h with rfl
      simp [joinWith]
    | cons b t2 =>
      rcases List.mem_cons.mp h with rfl | hmem
      · refine List.IsPrefix.isInfix ?_
        rw [joinWith, data_append, data_append]
        exact ⟨sep.data ++ (joinWith sep (b :: t2)).data, by simp⟩
      · have htail := ih hmem
        refine htail.trans ?_
        refine List.IsSuffix.isInfix ?_
        rw [joinWith, data_append, data_append]
        exact ⟨a.data ++ sep.data, by simp⟩

/-- Numeric ranges for each score scale
(`SCORE_SCALE_NUMERIC_RANGES` in rubric.py), as an association list. -/
def SCORE_SCALE_NUMERIC_RANGES : List (String × Int × Int) :=
  [("0-1", (0, 1)), ("0-5", (0, 5)), ("0-10", (0, 10)), ("percentage", (0, 100))]

/-- Generates the human-readable description for one numeric range.
The source special-cases lo = 0, hi = 1 to the phrasing "0 or 1". -/
def scaleDescription (lo hi : Int) : String :=
  if lo = 0 ∧ hi = 1 then "use an integer score of 0 or 1"
  else "use an integer score from " ++ toString lo ++ " to " ++ toString hi

/-- `_build_score_scale_descriptions` in rubric.py: derives the description
table from the numeric-range table, keeping the latter the single source of
truth. -/
def _build_score_scale_descriptions
    (ranges : List (String × Int × Int)) : List (String × String) :=
  ranges.map (fun p => (p.1, scaleDescription p.2.1 p.2.2))

/-- `SCORE_SCALE_DESCRIPTIONS` in rubric.py. -/
def SCORE_SCALE_DESCRIPTIONS : List (String × String) :=
  _build_score_scale_descriptions SCORE_SCALE_NUMERIC_RANGES

/-- Looks up the numeric range of a scale tag. -/
def lookupRange (scale : String) : Option (Int × Int) :=
  SCORE_SCALE_NUMERIC_RANGES.lookup scale

/-- One scored dimension of a rubric (dataclass `Criterion` in rubric.py). -/
structure Criterion where
  id : String
  name : String
  description : String
  weight : ℚ
  scale : String
  deriving Repr, DecidableEq

/-- `Criterion.__post_init__` as a fallible constructor: the scale must be a
key of the description table and the weight strictly positive, checked in
that order, each failure raising a ValueError naming the offending value. -/
def mkCriterion (id name description : String) (weight : ℚ) (scale : String) :
    Except String Criterion :=
  if (SCORE_SCALE_DESCRIPTIONS.lookup scale).isNone then
    .error ("Invalid scale: " ++ scale ++ ". Must be one of (0-1, 0-5, 0-10, percentage)")
  else if weight ≤ 0 then
    .error ("Invalid weight: " ++ ratStr weight ++ ". Must be positive")
  else
    .ok ⟨id, name, description, weight, scale⟩

/-- A weighted set of criteria with a maximum and passing threshold
(dataclass `Rubric` in rubric.py). -/
structure Rubric where
  task_id : String
  title : String
  description : String
  overall_max_score : ℚ
  min_passing_score : ℚ
  criteria : List Criterion
  deriving Repr, DecidableEq

/-- `Rubric.__post_init__` as a fallible constructor: criteria non-empty,
min_passing_score strictly positive and at most overall_max_score, checked
in that order. -/
def mkRubric (task_id title description : String)
    (overall_max_score min_passing_score : ℚ) (criteria : List Criterion) :
    Except String Rubric :=
  if criteria.isEmpty then
    .error "criteria must be non-empty"
  else if min_passing_score ≤ 0 then
    .error ("Invalid min_passing_score: " ++ ratStr min_passing_score ++ ". Must be positive")
  else if min_passing_score > overall_max_score then
    .error ("Invalid min_passing_score: " ++ ratStr min_passing_score ++
      ". Must be less than or equal to overall_max_score")
  else
    .ok ⟨task_id, title, description, overall_max_score, min_passing_score, criteria⟩

/-! ## Criterion matcher and score aggregator

The evaluator module itself (`task_grader/grading/evaluator.py`) is not part
of the sources; only its unit tests are. The definitions below are therefore
modelled from the specification (sections 4.2 to 4.4), with the concrete
error-message phrases pinned by the unit tests in `src/tests/test_evaluator.py`.
-/

/-- Modelled from the spec: Python str.lower as ASCII lowercasing of every
character (rubric and entry ids are ASCII identifiers). -/
def strLower (s : String) : String := String.mk (s.data.map Char.toLower)

/-- One per-criterion entry of `criteria_specific_evaluations` as parsed from
the external text (spec section 4.3: minimally id, score_scale, score,
justification). -/
structure EvalEntry where
  id : String
  name : String
  score_scale : String
  score : ℚ
  justification : String
  deriving Repr, DecidableEq

/-- A rubric-matched, range-validated score (dataclass `CriterionEvaluation`,
spec section 3). -/
structure CriterionEvaluation where
  id : String
  name : String
  score_scale : String
  score : ℚ
  justification : String
  deriving Repr, DecidableEq

/-- The error conditions of the matcher (spec section 7): unknown criterion
id, out-of-range score, and the impossible-for-validated-rubrics case of a
scale tag absent from the range table (a Python KeyError). -/
inductive EvalError where
  | criterionMatchError (msg : String)
  | scoreRangeError (msg : String)
  | scaleKeyError (scale : String)
  deriving Repr, DecidableEq

/-- Modelled from the spec: case-insensitive exact lookup of an entry id
among the rubric criteria (spec section 4.3 step 1). -/
def findCriterion (rubric : Rubric) (eid : String) : Option Criterion :=
  rubric.criteria.find? (fun c => strLower c.id == strLower eid)

/-- The message of a CriterionMatchError: names the unmatched id and the full
list of canonical rubric ids (phrase pinned by
test_build_criterion_evaluations_unknown_id_raises). -/
def matchErrMsg (eid : String) (rubric : Rubric) : String :=
  "Criterion id " ++ eid ++ " not found in rubric. Valid ids: " ++
    joinWith ", " (rubric.criteria.map Criterion.id)

/-- The message of a ScoreRangeError: names the id, the offending score and
the expected scale label (phrases pinned by
test_build_criterion_evaluations_score_out_of_range_raises). -/
def rangeErrMsg (cid : String) (score : ℚ) (scale : String) : String :=
  "Score " ++ ratStr score ++ " for criterion " ++ cid ++
    " is out of range for scale " ++ scale

/-- Modelled from the spec: `LLMTaskEvaluator._build_criterion_evaluations`
(spec section 4.3). For each entry: match its id case-insensitively against
the rubric, validate the score against the matched criterion's own numeric
range, and emit a CriterionEvaluation carrying the canonical rubric id and
the matched criterion's scale; the first failure aborts the whole pass. -/
def _build_criterion_evaluations (entries : List EvalEntry) (rubric : Rubric) :
    Except EvalError (List CriterionEvaluation) :=
  match entries with
  | [] => .ok []
  | e :: rest =>
    match findCriterion rubric e.id with
    | none => .error (.criterionMatchError (matchErrMsg e.id rubric))
    | some c =>
      match lookupRange c.scale with
      | none => .error (.scaleKeyError c.scale)
      | some (lo, hi) =>
        if (lo : ℚ) ≤ e.score ∧ e.score ≤ (hi : ℚ) then
          (_build_criterion_evaluations rest rubric).map
            (fun evals => ⟨c.id, e.name, c.scale, e.score, e.justification⟩ :: evals)
        else
          .error (.scoreRangeError (rangeErrMsg c.id e.score c.scale))

/-- `normalize(score, (lo, hi)) = (score - lo) / (hi - lo)` (spec section 4.4). -/
def normalize (score : ℚ) (lo hi : Int) : ℚ := (score - lo) / (hi - lo)

/-- One accumulation step of the aggregator: an evaluation whose id exists in
the rubric adds its weighted normalized score and its weight; one absent from
the rubric is skipped. -/
def aggStep (rubric : Rubric) (acc : ℚ × ℚ) (ev : CriterionEvaluation) : ℚ × ℚ :=
  match (rubric.criteria.find? (fun c => c.id == ev.id)).bind
      (fun c => (lookupRange c.scale).map (fun r => (c, r))) with
  | none => acc
  | some (c, lo, hi) => (acc.1 + c.weight * normalize ev.score lo hi, acc.2 + c.weight)

/-- Modelled from the spec: `LLMTaskEvaluator._compute_total_score`
(spec section 4.4), as the imperative accumulation of weighted normalized
scores and weights over the matched evaluations, scaled to the maximum. -/
def _compute_total_score (evals : List CriterionEvaluation) (rubric : Rubric) : ℚ :=
  let acc := evals.foldl (aggStep rubric) (0, 0)
  rubric.overall_max_score * acc.1 / acc.2

/-- The weighted term and the weight the spec formula assigns to one matched
evaluation (zero contribution for an evaluation absent from the rubric). -/
def specTerm (rubric : Rubric) (ev : CriterionEvaluation) : ℚ × ℚ :=
  match (rubric.criteria.find? (fun c => c.id == ev.id)).bind
      (fun c => (lookupRange c.scale).map (fun r => (c, r))) with
  | none => (0, 0)
  | some (c, lo, hi) => (c.weight * normalize ev.score lo hi, c.weight)

/-- The spec formula of section 4.4, written as sums over the matched
evaluations: overall_max_score times the weighted sum of normalized scores
divided by the sum of weights, both sums ranging over evaluations that
exist in the rubric. -/
def spec_total_score (evals : List CriterionEvaluation) (rubric : Rubric) : ℚ :=
  rubric.overall_max_score * (evals.map (fun ev => (specTerm rubric ev).1)).sum /
    (evals.map (fun ev => (specTerm rubric ev).2)).sum

/-! ## Response parser -/

/-- A parsed YAML document root: scalar, sequence, or mapping. -/
inductive Yaml where
  | scalar (s : String)
  | seq (items : List Yaml)
  | map (fields : List (String × Yaml))

/-- The four required top-level keys of an evaluation response
(spec section 4.2). -/
def REQUIRED_KEYS : List String :=
  ["intro", "overall_evaluation", "overall_verdict", "criteria_specific_evaluations"]

/-- The required keys absent from a parsed mapping, in declaration order. -/
def missingKeys (fields : List (String × Yaml)) : List String :=
  REQUIRED_KEYS.filter (fun k => !(fields.any (fun kv => kv.1 == k)))

/-- Whether a YAML root is a mapping. -/
def Yaml.isMap : Yaml → Bool
  | .map _ => true
  | _ => false

/-- Modelled from the spec: the validation stage of
`LLMTaskEvaluator._parse_yaml` (spec section 4.2 steps 2 and 3), applied to
the YAML root obtained from the fence-stripped response text. A non-mapping
root fails with the fixed message pinned by
test_parse_yaml_non_mapping_top_level_raises; a mapping missing required
keys fails with one message enumerating all of them, pinned by
test_parse_yaml_missing_required_keys_raises. -/
def _parse_yaml (root : Yaml) : Except String (List (String × Yaml)) :=
  match root with
  | .map fields =>
    if (missingKeys fields).isEmpty then .ok fields
    else .error ("Missing required keys in YAML response: " ++
      joinWith ", " (missingKeys fields))
  | _ => .error "Expected top-level YAML mapping"

/-! ## JSON persistence of rubrics and criteria

The save/load methods of `Rubric` and `Criterion` are exercised by
`src/tests/test_rubric.py` but their bodies are not among the sources, so the
format is modelled from spec section 6, at the level of JSON values (the
file-system read/write wrapper is not representable here).
-/

/-- A JSON value (strings, numbers, arrays and objects suffice for the
persistence format of spec section 6). -/
inductive Json where
  | str (s : String)
  | num (q : ℚ)
  | arr (items : List Json)
  | obj (fields : List (String × Json))

/-- The field of a JSON object, none for other values. -/
def jsonField (j : Json) (k : String) : Option Json :=
  match j with
  | .obj fields => fields.lookup k
  | _ => none

/-- The key list of a JSON object. -/
def jsonKeys (j : Json) : List String :=
  match j with
  | .obj fields => fields.map Prod.fst
  | _ => []

/-- String content of a JSON value. -/
def Json.getStr : Json → Option String
  | .str s => some s
  | _ => none

/-- Numeric content of a JSON value. -/
def Json.getNum : Json → Option ℚ
  | .num q => some q
  | _ => none

/-- Array content of a JSON value. -/
def Json.getArr : Json → Option (List Json)
  | .arr items => some items
  | _ => none

/-- Modelled from the spec: `Criterion.save_to_json` serializes a criterion
as the five-field JSON object of spec section 6. -/
def Criterion.toJson (c : Criterion) : Json :=
  .obj [("id", .str c.id), ("name", .str c.name),
        ("description", .str c.description), ("weight", .num c.weight),
        ("scale", .str c.scale)]

/-- Modelled from the spec: `Criterion.load_from_json` reads the five fields
and passes them through the construction-time validation (spec section 6). -/
def Criterion.fromJson (j : Json) : Except String Criterion :=
  match (jsonField j "id").bind Json.getStr,
        (jsonField j "name").bind Json.getStr,
        (jsonField j "description").bind Json.getStr,
        (jsonField j "weight").bind Json.getNum,
        (jsonField j "scale").bind Json.getStr with
  | some i, some n, some d, some w, some s => mkCriterion i n d w s
  | _, _, _, _, _ => .error "Invalid criterion JSON object"

/-- Modelled from the spec: `Rubric.save_to_json` serializes a rubric as the
six-key JSON object of spec section 6, its criteria as an array of
five-field objects. -/
def Rubric.toJson (r : Rubric) : Json :=
  .obj [("task_id", .str r.task_id), ("title", .str r.title),
        ("description", .str r.description),
        ("overall_max_score", .num r.overall_max_score),
        ("min_passing_score", .num r.min_passing_score),
        ("criteria", .arr (r.criteria.map Criterion.toJson))]

/-- Modelled from the spec: `Rubric.load_from_json` reads the six keys,
deserializes each criterion, and passes everything through the
construction-time validation (spec section 6). -/
def Rubric.fromJson (j : Json) : Except String Rubric :=
  match (jsonField j "task_id").bind Json.getStr,
        (jsonField j "title").bind Json.getStr,
        (jsonField j "description").bind Json.getStr,
        (jsonField j "overall_max_score").bind Json.getNum,
        (jsonField j "min_passing_score").bind Json.getNum,
        (jsonField j "criteria").bind Json.getArr with
  | some t, some ti, some d, some mx, some mn, some items => do
    let cs ← items.mapM Criterion.fromJson
    mkRubric t ti d mx mn cs
  | _, _, _, _, _, _ => .error "Invalid rubric JSON object"

/-! ## Google Drive file-id extraction (`docs/google_colab.py`) -/

/-- A character matched by the regex class [a-zA-Z0-9_-]. -/
def isDriveIdChar (c : Char) : Bool := c.isAlphanum || c == '_' || c == '-'

/-- re.search for a fixed prefix followed by a captured non-empty run of id
characters: tries every start position left to right, and at the first
position where the prefix matches and at least one id character follows,
returns the maximal run of id characters. -/
def searchCapture (pat : List Char) : List Char → Option (List Char)
  | [] => none
  | l@(_ :: tl) =>
    if pat.isPrefixOf l then
      match (l.drop pat.length).takeWhile isDriveIdChar with
      | [] => searchCapture pat tl
      | run => some run
    else searchCapture pat tl

/-- The characters before the first occurrence of a delimiter (the whole
list when the delimiter is absent). -/
def beforeChar (c : Char) (l : List Char) : List Char :=
  l.takeWhile (fun x => x ≠ c)

/-- The characters after the first occurrence of a delimiter, none when the
delimiter is absent. -/
def afterChar (c : Char) (l : List Char) : Option (List Char) :=
  match l.dropWhile (fun x => x ≠ c) with
  | [] => none
  | _ :: rest => some rest

/-- The query component a urlparse of the URL yields: the part after the
first question mark of the pre-fragment portion (empty when there is no
question mark there). -/
def queryOf (url : List Char) : List Char :=
  (afterChar '?' (beforeChar '#' url)).getD []

/-- parse_qs lookup of one key: split the query on ampersands, keep fields
that have an equals sign and a non-empty value, and return the value of the
first field whose name matches (percent-decoding is modelled as the
identity; Drive ids and the key id contain no encoded characters). -/
def getQueryParam (query : List Char) (key : List Char) : Option (List Char) :=
  ((query.splitOn '&').filterMap (fun f =>
    match afterChar '=' f with
    | none => none
    | some v =>
      if beforeChar '=' f = key ∧ v ≠ [] then some v else none)).head?

/-- `extract_drive_file_id` in google_colab.py: first a /drive/ path
segment, then an id query parameter, then a /file/d/ path segment; the
first pattern that matches wins. -/
def extract_drive_file_id (url : String) : Option String :=
  match searchCapture "/drive/".data url.data with
  | some cap => some (String.mk cap)
  | none =>
    match getQueryParam (queryOf url.data) "id".data with
    | some v => some (String.mk v)
    | none => (searchCapture "/file/d/".data url.data).map String.mk

/-! ## Concrete fixtures (mirroring the unit-test data) -/

/-- The list of recognized scale tags, in table order. -/
def VALID_SCALES : List String := ["0-1", "0-5", "0-10", "percentage"]

/-- A clarity criterion like the one of make_sample_rubric in the tests. -/
def critClarity : Criterion :=
  ⟨"clarity", "Clarity of intent and scope",
   "How clearly the evaluation intent and scope are stated.", 1, "0-10"⟩

/-- A structure criterion like the one of make_sample_rubric in the tests. -/
def critStructure : Criterion :=
  ⟨"structure", "Prompt structure",
   "How well-structured and modular the prompt is.", 1, "0-10"⟩

/-- The sample rubric of the evaluator tests. -/
def sampleRubric : Rubric :=
  ⟨"task-1", "Sample Rubric",
   "Evaluate how well the trainee designs a prompt template.", 100, 60,
   [critClarity, critStructure]⟩

/-- Criterion A of the mixed-scales aggregation test (weight 1, scale 0-10). -/
def critA : Criterion := ⟨"crit_a", "Criterion A", "", 1, "0-10"⟩

/-- Criterion B of the mixed-scales aggregation test (weight 1, scale 0-5). -/
def critB : Criterion := ⟨"crit_b", "Criterion B", "", 1, "0-5"⟩

/-- The mixed-scales rubric of the aggregation test. -/
def mixRubric : Rubric :=
  ⟨"scales-1", "Mixed Scales Rubric", "", 100, 50, [critA, critB]⟩

/-- Evaluation of criterion A at 8 of 10. -/
def evalA : CriterionEvaluation := ⟨"crit_a", "Criterion A", "0-10", 8, ""⟩

/-- Evaluation of criterion B at 4 of 5. -/
def evalB : CriterionEvaluation := ⟨"crit_b", "Criterion B", "0-5", 4, ""⟩

/-- Evaluation of clarity at 8 of 10. -/
def evalC8 : CriterionEvaluation := ⟨"clarity", "Clarity of intent and scope", "0-10", 8, ""⟩

/-- Evaluation of structure at 7 of 10. -/
def evalS7 : CriterionEvaluation := ⟨"structure", "Prompt structure", "0-10", 7, ""⟩

/-- The truncated response mapping of the missing-keys test: only intro and
overall_evaluation are present. -/
def badFields : List (String × Yaml) :=
  [("intro", Yaml.scalar "Hi"),
   ("overall_evaluation", Yaml.scalar "Only two fields here.")]

/-- An entry whose id differs from the clarity criterion only in casing. -/
def entryCaseClarity : EvalEntry :=
  ⟨"ClArItY", "Clarity of intent and scope", "0-10", 9, "Looks good."⟩

/-- An entry whose id matches no rubric criterion. -/
def entryNonexistent : EvalEntry :=
  ⟨"nonexistent", "Clarity of intent and scope", "0-10", 8, "Text"⟩

/-- An entry with a score of 999, clearly outside the 0-10 scale. -/
def entry999 : EvalEntry :=
  ⟨"clarity", "Clarity of intent and scope", "0-10", 999, "Way too big."⟩

/-! ## Helper lemmas -/

/-- A string occurring in the right part of an append occurs in the whole. -/
theorem strInfix_append_right (x a b : String) (h : x.data <:+: b.data) :
    x.data <:+: (a ++ b).data := by
  rw [data_append]
  exact h.trans (List.suffix_append a.data b.data).isInfix

/-- A string occurring in the left part of an append occurs in the whole. -/
theorem strInfix_append_left (x a b : String) (h : x.data <:+: a.data) :
    x.data <:+: (a ++ b).data := by
  rw [data_append]
  exact h.trans (List.prefix_append a.data b.data).isInfix

/-- Association-list lookup succeeds exactly for the listed keys. -/
theorem lookup_isSome_iff {β : Type} (a : String) (l : List (String × β)) :
    ((l.lookup a).isSome = true) ↔ a ∈ l.map Prod.fst := by
  induction l with
  | nil => simp [List.lookup]
  | cons p t ih =>
    obtain ⟨k, b⟩ := p
    by_cases h : a = k
    · simp [List.lookup, h]
    · have hbeq : (a == k) = false := by simpa using h
      simp [List.lookup, hbeq, ih, h]

/-- The description table has exactly the four scale tags as keys. -/
theorem desc_keys : SCORE_SCALE_DESCRIPTIONS.map Prod.fst = VALID_SCALES := by decide

/-- A scale tag has a description exactly when it is one of the four
recognized tags. -/
theorem scale_valid_iff (s : String) :
    ((SCORE_SCALE_DESCRIPTIONS.lookup s).isSome = true) ↔ s ∈ VALID_SCALES := by
  rw [lookup_isSome_iff, desc_keys]

/-- An unrecognized scale tag has no description. -/
theorem scale_lookup_none_of_not_mem {s : String} (h : s ∉ VALID_SCALES) :
    SCORE_SCALE_DESCRIPTIONS.lookup s = none := by
  rw [← scale_valid_iff] at h
  exact Option.not_isSome_iff_eq_none.mp (by simpa using h)

/-- A recognized scale tag passes the isNone test of the constructor. -/
theorem scale_lookup_isNone_false_of_mem {s : String} (h : s ∈ VALID_SCALES) :
    (SCORE_SCALE_DESCRIPTIONS.lookup s).isNone = false := by
  rw [← scale_valid_iff] at h
  cases hx : SCORE_SCALE_DESCRIPTIONS.lookup s with
  | none => rw [hx] at h; exact absurd h (by simp)
  | some v => rfl

/-- A scale tag whose description lookup is not none is recognized. -/
theorem scale_mem_of_lookup_not_none {s : String}
    (h : ¬ ((SCORE_SCALE_DESCRIPTIONS.lookup s).isNone = true)) : s ∈ VALID_SCALES := by
  rw [← scale_valid_iff]
  cases hx : SCORE_SCALE_DESCRIPTIONS.lookup s with
  | none => exact absurd (by rw [hx]; rfl) h
  | some v => rfl

/-- Inversion of a successful criterion construction: the result is the
field-for-field record and the validated facts hold. -/
theorem mkCriterion_ok_inv {i n d : String} {w : ℚ} {s : String} {c : Criterion}
    (h : mkCriterion i n d w s = .ok c) :
    c = ⟨i, n, d, w, s⟩ ∧ 0 < w ∧ s ∈ VALID_SCALES := by
  unfold mkCriterion at h
  split_ifs at h with h1 h2
  cases h
  exact ⟨rfl, lt_of_not_le h2, scale_mem_of_lookup_not_none h1⟩

/-- A criterion with a positive weight and recognized scale constructs. -/
theorem mkCriterion_ok_of_valid {i n d : String} {w : ℚ} {s : String}
    (hw : 0 < w) (hs : s ∈ VALID_SCALES) :
    mkCriterion i n d w s = .ok ⟨i, n, d, w, s⟩ := by
  simp [mkCriterion, scale_lookup_isNone_false_of_mem hs, not_le.mpr hw]

/-- Inversion of a successful rubric construction. -/
theorem mkRubric_ok_inv {t ti d : String} {mx mn : ℚ} {cs : List Criterion}
    {r : Rubric} (h : mkRubric t ti d mx mn cs = .ok r) :
    r = ⟨t, ti, d, mx, mn, cs⟩ ∧ cs ≠ [] ∧ 0 < mn ∧ mn ≤ mx := by
  unfold mkRubric at h
  split_ifs at h with h1 h2 h3
  cases h
  exact ⟨rfl, by simpa [List.isEmpty_iff] using h1, lt_of_not_le h2, not_lt.mp h3⟩

/-- A rubric with a non-empty criteria list and a positive passing score at
most the maximum constructs. -/
theorem mkRubric_ok_of_valid {t ti d : String} {mx mn : ℚ} {cs : List Criterion}
    (hcs : cs ≠ []) (hmn : 0 < mn) (hle : mn ≤ mx) :
    mkRubric t ti d mx mn cs = .ok ⟨t, ti, d, mx, mn, cs⟩ := by
  simp [mkRubric, List.isEmpty_iff, hcs, not_le.mpr hmn, not_lt.mpr hle]

/-! ## Claims about the rubric model -/

/-- Claim C8: the scale-to-range and scale-to-description mappings are fixed
constants defined for exactly the four tags; 0-1 maps to (0,1), 0-5 to
(0,5), 0-10 to (0,10) and percentage to (0,100); the 0-1 description
phrases the bound as 0 or 1 and every other description as from N to M. -/
theorem C8_scale_tables :
    SCORE_SCALE_NUMERIC_RANGES.map Prod.fst = VALID_SCALES ∧
    SCORE_SCALE_DESCRIPTIONS.map Prod.fst = VALID_SCALES ∧
    lookupRange "0-1" = some (0, 1) ∧ lookupRange "0-5" = some (0, 5) ∧
    lookupRange "0-10" = some (0, 10) ∧ lookupRange "percentage" = some (0, 100) ∧
    SCORE_SCALE_DESCRIPTIONS.lookup "0-1" = some "use an integer score of 0 or 1" ∧
    SCORE_SCALE_DESCRIPTIONS.lookup "0-5" = some "use an integer score from 0 to 5" ∧
    SCORE_SCALE_DESCRIPTIONS.lookup "0-10" = some "use an integer score from 0 to 10" ∧
    SCORE_SCALE_DESCRIPTIONS.lookup "percentage" =
      some "use an integer score from 0 to 100" := by
  decide

/-- Claim C6: a criterion constructs exactly when its weight is strictly
positive and its scale is one of the four recognized tags; an unrecognized
scale fails with a message naming the scale tag, and a non-positive weight
fails with a message naming the weight. -/
theorem C6_criterion_construction (i n d : String) (w : ℚ) (s : String) :
    ((∃ c, mkCriterion i n d w s = .ok c) ↔ (0 < w ∧ s ∈ VALID_SCALES)) ∧
    (s ∉ VALID_SCALES →
      ∃ msg, mkCriterion i n d w s = .error msg ∧ s.data <:+: msg.data) ∧
    (s ∈ VALID_SCALES → w ≤ 0 →
      ∃ msg, mkCriterion i n d w s = .error msg ∧ (ratStr w).data <:+: msg.data) := by
  refine ⟨?_, ?_, ?_⟩
  · unfold mkCriterion
    split_ifs with h1 h2
    · have hmem : s ∉ VALID_SCALES := by
        rw [← scale_valid_iff]
        rw [Option.isNone_iff_eq_none.mp h1]
        simp
      simp [hmem]
    · simp [not_lt.mpr h2]
    · simp [scale_mem_of_lookup_not_none h1, lt_of_not_le h2]
  · intro hs
    have h1 : SCORE_SCALE_DESCRIPTIONS.lookup s = none := scale_lookup_none_of_not_mem hs
    refine ⟨"Invalid scale: " ++ s ++ ". Must be one of (0-1, 0-5, 0-10, percentage)",
      ?_, ?_⟩
    · simp [mkCriterion, h1]
    · exact strInfix_append_left _ _ _ (strInfix_append_right _ _ _ (List.infix_refl _))
  · intro hs hw
    have h1 : (SCORE_SCALE_DESCRIPTIONS.lookup s).isNone = false :=
      scale_lookup_isNone_false_of_mem hs
    refine ⟨"Invalid weight: " ++ ratStr w ++ ". Must be positive", ?_, ?_⟩
    · simp [mkCriterion, h1, hw]
    · exact strInfix_append_left _ _ _ (strInfix_append_right _ _ _ (List.infix_refl _))

/-- Claim C6 witness: weight 1 with scale 0-10 constructs; scale 0-100 fails
naming the scale; weight 0 fails naming the weight. -/
theorem C6_criterion_construction_witness :
    (∃ c, mkCriterion "test-id" "Test Name" "Test Desc" 1 "0-10" = .ok c) ∧
    (∃ msg, mkCriterion "test-id" "Test Name" "Test Desc" 1 "0-100" = .error msg ∧
      "0-100".data <:+: msg.data) ∧
    (∃ msg, mkCriterion "test-id" "Test Name" "Test Desc" 0 "0-10" = .error msg ∧
      (ratStr 0).data <:+: msg.data) :=
  ⟨(C6_criterion_construction "test-id" "Test Name" "Test Desc" 1 "0-10").1.mpr
      ⟨by decide, by decide⟩,
   (C6_criterion_construction "test-id" "Test Name" "Test Desc" 1 "0-100").2.1
      (by decide),
   (C6_criterion_construction "test-id" "Test Name" "Test Desc" 0 "0-10").2.2
      (by decide) (by decide)⟩

/-- Claim C5: a rubric constructs exactly when its criteria list is
non-empty, its minimum passing score is strictly positive, and the minimum
passing score does not exceed the overall maximum. -/
theorem C5_rubric_construction (t ti d : String) (mx mn : ℚ)
    (cs : List Criterion) :
    (∃ r, mkRubric t ti d mx mn cs = .ok r) ↔ (cs ≠ [] ∧ 0 < mn ∧ mn ≤ mx) := by
  constructor
  · rintro ⟨r, h⟩
    obtain ⟨-, h2, h3, h4⟩ := mkRubric_ok_inv h
    exact ⟨h2, h3, h4⟩
  · rintro ⟨h1, h2, h3⟩
    exact ⟨_, mkRubric_ok_of_valid h1 h2 h3⟩

/-- Claim C5 witness: the sample rubric data constructs, while an empty
criteria list, a zero passing score, and a passing score above the maximum
are each rejected. -/
theorem C5_rubric_construction_witness :
    (∃ r, mkRubric "task-1" "Sample Rubric" "A test rubric." 100 60
      [critClarity] = .ok r) ∧
    ¬ (∃ r, mkRubric "task-empty" "Empty Rubric" "No criteria." 100 50
      ([] : List Criterion) = .ok r) ∧
    ¬ (∃ r, mkRubric "task-1" "Sample Rubric" "A test rubric." 100 0
      [critClarity] = .ok r) ∧
    ¬ (∃ r, mkRubric "task-1" "Sample Rubric" "A test rubric." 50 60
      [critClarity] = .ok r) :=
  ⟨(C5_rubric_construction "task-1" "Sample Rubric" "A test rubric." 100 60
      [critClarity]).mpr ⟨by decide, by decide, by decide⟩,
   fun h => by
    obtain ⟨h1, -, -⟩ :=
      (C5_rubric_construction "task-empty" "Empty Rubric" "No criteria." 100 50 []).mp h
    exact h1 rfl,
   fun h => by
    obtain ⟨-, h2, -⟩ :=
      (C5_rubric_construction "task-1" "Sample Rubric" "A test rubric." 100 0
        [critClarity]).mp h
    exact absurd h2 (by decide),
   fun h => by
    obtain ⟨-, -, h3⟩ :=
      (C5_rubric_construction "task-1" "Sample Rubric" "A test rubric." 50 60
        [critClarity]).mp h
    exact absurd h3 (by decide)⟩

/-- Claim C9: every rubric that constructs, directly or through JSON
loading, satisfies 0 < min_passing_score <= overall_max_score, and hence
its overall maximum is strictly positive; nothing in the embedding mutates
a constructed rubric. -/
theorem C9_rubric_invariant :
    (∀ (t ti d : String) (mx mn : ℚ) (cs : List Criterion) (r : Rubric),
      mkRubric t ti d mx mn cs = .ok r →
      0 < r.min_passing_score ∧ r.min_passing_score ≤ r.overall_max_score ∧
        0 < r.overall_max_score) ∧
    (∀ (j : Json) (r : Rubric), Rubric.fromJson j = .ok r →
      0 < r.min_passing_score ∧ r.min_passing_score ≤ r.overall_max_score ∧
        0 < r.overall_max_score) := by
  have key : ∀ (t ti d : String) (mx mn : ℚ) (cs : List Criterion) (r : Rubric),
      mkRubric t ti d mx mn cs = .ok r →
      0 < r.min_passing_score ∧ r.min_passing_score ≤ r.overall_max_score ∧
        0 < r.overall_max_score := by
    intro t ti d mx mn cs r h
    obtain ⟨rfl, -, h3, h4⟩ := mkRubric_ok_inv h
    exact ⟨h3, h4, lt_of_lt_of_le h3 h4⟩
  refine ⟨key, ?_⟩
  intro j r h
  unfold Rubric.fromJson at h
  split at h
  · rename_i t ti d mx mn items _ _ _ _ _ _
    simp only [bind, Except.bind] at h
    split at h
    · exact absurd h (by simp)
    · exact key _ _ _ _ _ _ _ h
  · exact absurd h (by simp)

/-- Claim C9 witness: the concrete sample rubric construction yields an
instance whose scores satisfy the invariant. -/
theorem C9_rubric_invariant_witness :
    0 < sampleRubric.min_passing_score ∧
    sampleRubric.min_passing_score ≤ sampleRubric.overall_max_score ∧
    0 < sampleRubric.overall_max_score :=
  C9_rubric_invariant.1 "task-1" "Sample Rubric"
    "Evaluate how well the trainee designs a prompt template." 100 60
    [critClarity, critStructure] sampleRubric
    (mkRubric_ok_of_valid (by decide) (by decide) (by decide))

/-! ## Claims about the response parser -/

/-- The missing-keys message can never coincide with the non-mapping
message (their first characters differ). -/
theorem missing_msg_ne (l : List Char) :
    "Missing required keys in YAML response: ".data ++ l ≠
      "Expected top-level YAML mapping".data := by
  intro he
  have hc := congrArg List.head? he
  rw [show "Missing required keys in YAML response: ".data =
    'M' :: "issing required keys in YAML response: ".data from rfl] at hc
  rw [show "Expected top-level YAML mapping".data =
    'E' :: "xpected top-level YAML mapping".data from rfl] at hc
  simp at hc

/-- Claim C4 counterexample: on a sequence root the parser fails with the
message Expected top-level YAML mapping, which does not contain the phrase
Expected top-level mapping claimed by the specification. -/
theorem C4_parser_message_counterexample :
    _parse_yaml (Yaml.seq [Yaml.map [("intro", Yaml.scalar "x")]]) =
      .error "Expected top-level YAML mapping" ∧
    ¬ ("Expected top-level mapping".data <:+: "Expected top-level YAML mapping".data) :=
  ⟨rfl, by decide⟩

/-- Claim C4 (amended): the parser fails with the message Expected
top-level YAML mapping exactly when the root is not a mapping, and a
mapping root with missing required keys fails with a single message
enumerating every missing key. -/
theorem C4_parser_errors (root : Yaml) :
    ((_parse_yaml root = .error "Expected top-level YAML mapping") ↔
      root.isMap = false) ∧
    (∀ fields, root = .map fields → missingKeys fields ≠ [] →
      _parse_yaml root = .error ("Missing required keys in YAML response: " ++
        joinWith ", " (missingKeys fields)) ∧
      ∀ k ∈ missingKeys fields,
        k.data <:+: ("Missing required keys in YAML response: " ++
          joinWith ", " (missingKeys fields)).data) := by
  constructor
  · cases root with
    | scalar s => simp [_parse_yaml, Yaml.isMap]
    | seq items => simp [_parse_yaml, Yaml.isMap]
    | map fields =>
      simp only [Yaml.isMap]
      constructor
      · intro h
        by_cases hm : (missingKeys fields).isEmpty
        · simp [_parse_yaml, hm] at h
        · simp [_parse_yaml, hm] at h
          exact absurd (congrArg String.data (h.trans rfl)) (by
            rw [data_append]
            exact missing_msg_ne _)
      · intro h
        cases h
  · intro fields hroot hne
    subst hroot
    have hm : (missingKeys fields).isEmpty = false := by
      simpa [List.isEmpty_iff] using hne
    refine ⟨by simp [_parse_yaml, hm], ?_⟩
    intro k hk
    exact strInfix_append_right _ _ _ (mem_joinWith_substr ", " _ k hk)

/-- Claim C4 witness: the two-field mapping of the missing-keys test fails
with one message naming both overall_verdict and
criteria_specific_evaluations. -/
theorem C4_parser_errors_witness :
    _parse_yaml (Yaml.map badFields) =
      .error ("Missing required keys in YAML response: " ++
        joinWith ", " (missingKeys badFields)) ∧
    "overall_verdict".data <:+: ("Missing required keys in YAML response: " ++
      joinWith ", " (missingKeys badFields)).data ∧
    "criteria_specific_evaluations".data <:+:
      ("Missing required keys in YAML response: " ++
        joinWith ", " (missingKeys badFields)).data := by
  obtain ⟨h1, h2⟩ :=
    (C4_parser_errors (Yaml.map badFields)).2 badFields rfl (by decide)
  exact ⟨h1, h2 _ (by decide), h2 _ (by decide)⟩

/-! ## Claims about the criterion matcher -/


/-- Claim C1: every evaluation produced by the matcher has a score inside
the numeric range of its matched rubric criterion; the matcher result is
independent of the score_scale echoed by the entries; and an out-of-range
score fails with a ScoreRangeError whose message holds the phrase out of
range, the canonical id, the score, and the expected scale label. -/
theorem C1_matcher_score_range (rubric : Rubric) :
    (∀ entries evals, _build_criterion_evaluations entries rubric = .ok evals →
      ∀ ev ∈ evals, ∃ c ∈ rubric.criteria, ev.id = c.id ∧
        ∃ lo hi, lookupRange c.scale = some (lo, hi) ∧
          (lo : ℚ) ≤ ev.score ∧ ev.score ≤ (hi : ℚ)) ∧
    (∀ entries (f : EvalEntry → String),
      _build_criterion_evaluations
        (entries.map (fun e => { e with score_scale := f e })) rubric =
      _build_criterion_evaluations entries rubric) ∧
    (∀ (e : EvalEntry) c lo hi, findCriterion rubric e.id = some c →
      lookupRange c.scale = some (lo, hi) →
      (e.score < (lo : ℚ) ∨ (hi : ℚ) < e.score) →
      _build_criterion_evaluations [e] rubric =
        .error (.scoreRangeError (rangeErrMsg c.id e.score c.scale)) ∧
      "out of range".data <:+: (rangeErrMsg c.id e.score c.scale).data ∧
      c.id.data <:+: (rangeErrMsg c.id e.score c.scale).data ∧
      (ratStr e.score).data <:+: (rangeErrMsg c.id e.score c.scale).data ∧
      c.scale.data <:+: (rangeErrMsg c.id e.score c.scale).data) := by
  refine ⟨?_, ?_, ?_⟩
  · intro entries
    induction entries with
    | nil =>
      intro evals h ev hev
      simp [_build_criterion_evaluations] at h
      subst h
      cases hev
    | cons e rest ih =>
      intro evals h ev hev
      rw [_build_criterion_evaluations] at h
      cases hf : findCriterion rubric e.id with
      | none => simp only [hf] at h; cases h
      | some c =>
        simp only [hf] at h
        cases hr : lookupRange c.scale with
        | none => simp only [hr] at h; cases h
        | some p =>
          obtain ⟨lo, hi⟩ := p
          simp only [hr] at h
          by_cases hin : (lo : ℚ) ≤ e.score ∧ e.score ≤ (hi : ℚ)
          · rw [if_pos hin] at h
            cases hb : _build_criterion_evaluations rest rubric with
            | error err => simp only [hb, Except.map] at h; cases h
            | ok tailEvals =>
              simp only [hb, Except.map] at h
              cases h
              rcases List.mem_cons.mp hev with rfl | htail
              · exact ⟨c, List.mem_of_find?_eq_some hf, rfl, lo, hi, hr, hin.1, hin.2⟩
              · exact ih tailEvals hb ev htail
          · rw [if_neg hin] at h
            cases h
  · intro entries f
    induction entries with
    | nil => rfl
    | cons e rest ih =>
      simp only [List.map_cons]
      rw [_build_criterion_evaluations, _build_criterion_evaluations]
      dsimp only
      cases hf : findCriterion rubric e.id with
      | none => simp only [hf]
      | some c =>
        simp only [hf]
        cases hr : lookupRange c.scale with
        | none => simp only [hr]
        | some p =>
          obtain ⟨lo, hi⟩ := p
          simp only [hr]
          by_cases hin : (lo : ℚ) ≤ e.score ∧ e.score ≤ (hi : ℚ)
          · rw [if_pos hin, if_pos hin, ih]
          · rw [if_neg hin, if_neg hin]
  · intro e c lo hi hf hr hout
    have hnin : ¬ ((lo : ℚ) ≤ e.score ∧ e.score ≤ (hi : ℚ)) := by
      rcases hout with h1 | h1
      · exact fun hc => absurd hc.1 (not_le.mpr h1)
      · exact fun hc => absurd hc.2 (not_le.mpr h1)
    refine ⟨?_, ?_, ?_, ?_, ?_⟩
    · rw [_build_criterion_evaluations]
      simp only [hf, hr, if_neg hnin]
    · exact strInfix_append_left _ _ _ (strInfix_append_right _ _ _ (by decide))
    · exact strInfix_append_left _ _ _ (strInfix_append_left _ _ _
        (strInfix_append_right _ _ _ (List.infix_refl _)))
    · exact strInfix_append_left _ _ _ (strInfix_append_left _ _ _
        (strInfix_append_left _ _ _ (strInfix_append_left _ _ _
          (strInfix_append_right _ _ _ (List.infix_refl _)))))
    · exact strInfix_append_right _ _ _ (List.infix_refl _)



/-- Claim C2: an entry matches a rubric criterion exactly when the
lowercased ids coincide; a matched criterion is a rubric member with the
case-insensitively equal id and the emitted evaluation carries the
canonical rubric id; an entry matched by no criterion fails with a
CriterionMatchError naming the unmatched id and every canonical rubric id,
with a message holding the phrase not found in rubric. -/
theorem C2_matcher_id_matching (rubric : Rubric) :
    (∀ eid, (∃ c, findCriterion rubric eid = some c) ↔
      ∃ c ∈ rubric.criteria, strLower c.id = strLower eid) ∧
    (∀ eid c, findCriterion rubric eid = some c →
      c ∈ rubric.criteria ∧ strLower c.id = strLower eid) ∧
    (∀ entries evals, _build_criterion_evaluations entries rubric = .ok evals →
      ∀ ev ∈ evals, ∃ e ∈ entries, ∃ c ∈ rubric.criteria,
        strLower c.id = strLower e.id ∧ ev.id = c.id) ∧
    (∀ (e : EvalEntry) rest,
      (∀ c ∈ rubric.criteria, strLower c.id ≠ strLower e.id) →
      _build_criterion_evaluations (e :: rest) rubric =
        .error (.criterionMatchError (matchErrMsg e.id rubric)) ∧
      "not found in rubric".data <:+: (matchErrMsg e.id rubric).data ∧
      e.id.data <:+: (matchErrMsg e.id rubric).data ∧
      ∀ c ∈ rubric.criteria, c.id.data <:+: (matchErrMsg e.id rubric).data) := by
  have part2 : ∀ eid c, findCriterion rubric eid = some c →
      c ∈ rubric.criteria ∧ strLower c.id = strLower eid := by
    intro eid c h
    refine ⟨List.mem_of_find?_eq_some h, ?_⟩
    have hp := List.find?_some h
    simpa using hp
  refine ⟨?_, part2, ?_, ?_⟩
  · intro eid
    cases hfind : findCriterion rubric eid with
    | none =>
      rw [findCriterion, List.find?_eq_none] at hfind
      constructor
      · rintro ⟨c, hc⟩
        cases hc
      · rintro ⟨c, hc, heq⟩
        exact absurd (by simpa using heq) (hfind c hc)
    | some c =>
      obtain ⟨hc, heq⟩ := part2 eid c hfind
      exact ⟨fun _ => ⟨c, hc, heq⟩, fun _ => ⟨c, rfl⟩⟩
  · intro entries
    induction entries with
    | nil =>
      intro evals h ev hev
      simp [_build_criterion_evaluations] at h
      subst h
      cases hev
    | cons e rest ih =>
      intro evals h ev hev
      rw [_build_criterion_evaluations] at h
      cases hf : findCriterion rubric e.id with
      | none => simp only [hf] at h; cases h
      | some c =>
        simp only [hf] at h
        cases hr : lookupRange c.scale with
        | none => simp only [hr] at h; cases h
        | some p =>
          obtain ⟨lo, hi⟩ := p
          simp only [hr] at h
          by_cases hin : (lo : ℚ) ≤ e.score ∧ e.score ≤ (hi : ℚ)
          · rw [if_pos hin] at h
            cases hb : _build_criterion_evaluations rest rubric with
            | error err => simp only [hb, Except.map] at h; cases h
            | ok tailEvals =>
              simp only [hb, Except.map] at h
              cases h
              rcases List.mem_cons.mp hev with rfl | htail
              · obtain ⟨hc, heq⟩ := part2 e.id c hf
                exact ⟨e, List.mem_cons_self e rest, c, hc, heq, rfl⟩
              · obtain ⟨e2, he2, c2, hc2, hlow, hid⟩ := ih tailEvals hb ev htail
                exact ⟨e2, List.mem_cons_of_mem e he2, c2, hc2, hlow, hid⟩
          · rw [if_neg hin] at h
            cases h
  · intro e rest hnm
    have hf : findCriterion rubric e.id = none := by
      rw [findCriterion, List.find?_eq_none]
      intro c hc
      simpa using hnm c hc
    refine ⟨?_, ?_, ?_, ?_⟩
    · rw [_build_criterion_evaluations]
      simp only [hf]
    · exact strInfix_append_left _ _ _ (strInfix_append_right _ _ _ (by decide))
    · exact strInfix_append_left _ _ _ (strInfix_append_left _ _ _
        (strInfix_append_right _ _ _ (List.infix_refl _)))
    · intro c hc
      exact strInfix_append_right _ _ _
        (mem_joinWith_substr ", " _ c.id (List.mem_map_of_mem Criterion.id hc))

/-- Claim C1 witness: a score of 999 for clarity on scale 0-10 fails with
a message holding out of range and 0-10. -/
theorem C1_matcher_score_range_witness :
    _build_criterion_evaluations [entry999] sampleRubric =
      .error (.scoreRangeError (rangeErrMsg "clarity" 999 "0-10")) ∧
    "out of range".data <:+: (rangeErrMsg "clarity" 999 "0-10").data ∧
    "0-10".data <:+: (rangeErrMsg "clarity" 999 "0-10").data := by
  obtain ⟨h1, h2, h3, h4, h5⟩ :=
    (C1_matcher_score_range sampleRubric).2.2 entry999 critClarity 0 10 (by rfl) (by rfl)
      (Or.inr (by decide))
  exact ⟨h1, h2, h5⟩

/-- Claim C2 witness: ClArItY matches the clarity criterion and yields the
canonical id, while the id nonexistent fails with a message holding not
found in rubric. -/
theorem C2_matcher_id_matching_witness :
    (∃ c, findCriterion sampleRubric "ClArItY" = some c) ∧
    (∀ ev ∈ [(⟨"clarity", "Clarity of intent and scope", "0-10", 9,
        "Looks good."⟩ : CriterionEvaluation)],
      ∃ e ∈ [entryCaseClarity], ∃ c ∈ sampleRubric.criteria,
        strLower c.id = strLower e.id ∧ ev.id = c.id) ∧
    _build_criterion_evaluations [entryNonexistent] sampleRubric =
      .error (.criterionMatchError (matchErrMsg "nonexistent" sampleRubric)) ∧
    "not found in rubric".data <:+: (matchErrMsg "nonexistent" sampleRubric).data := by
  obtain ⟨he, hnf, -⟩ :=
    (C2_matcher_id_matching sampleRubric).2.2.2 entryNonexistent [] (by decide)
  exact ⟨(C2_matcher_id_matching sampleRubric).1 "ClArItY" |>.mpr
      ⟨critClarity, by decide, by decide⟩,
    (C2_matcher_id_matching sampleRubric).2.2.1 [entryCaseClarity] _ (by rfl),
    he, hnf⟩

/-! ## Claim about the score aggregator -/


/-- The aggregation fold computes, componentwise, the spec sums shifted by
the accumulator. -/
theorem foldl_aggStep (rubric : Rubric) (l : List CriterionEvaluation) (a b : ℚ) :
    l.foldl (aggStep rubric) (a, b) =
      (a + (l.map (fun ev => (specTerm rubric ev).1)).sum,
       b + (l.map (fun ev => (specTerm rubric ev).2)).sum) := by
  induction l generalizing a b with
  | nil => simp
  | cons ev t ih =>
    rw [List.foldl_cons, List.map_cons, List.map_cons, List.sum_cons, List.sum_cons]
    have hstep : aggStep rubric (a, b) ev =
        (a + (specTerm rubric ev).1, b + (specTerm rubric ev).2) := by
      unfold aggStep specTerm
      cases hm : (rubric.criteria.find? (fun c => c.id == ev.id)).bind
          (fun c => (lookupRange c.scale).map (fun r => (c, r))) with
      | none => simp
      | some p =>
        obtain ⟨c, lo, hi⟩ := p
        simp
    rw [hstep, ih]
    simp [add_assoc]

/-- A matched in-range evaluation contributes a nonnegative weighted term
bounded by its positive weight. -/
theorem specTerm_bounds (rubric : Rubric) (ev : CriterionEvaluation)
    (h : ∃ c, rubric.criteria.find? (fun x => x.id == ev.id) = some c ∧
      0 < c.weight ∧ ∃ lo hi, lookupRange c.scale = some (lo, hi) ∧ lo < hi ∧
        (lo : ℚ) ≤ ev.score ∧ ev.score ≤ (hi : ℚ)) :
    0 ≤ (specTerm rubric ev).1 ∧
      (specTerm rubric ev).1 ≤ (specTerm rubric ev).2 ∧
      0 < (specTerm rubric ev).2 := by
  obtain ⟨c, hfind, hw, lo, hi, hrange, hlohi, hlos, hhis⟩ := h
  have hm : (rubric.criteria.find? (fun x => x.id == ev.id)).bind
      (fun c => (lookupRange c.scale).map (fun r => (c, r))) = some (c, lo, hi) := by
    rw [hfind]
    simp [hrange]
  unfold specTerm
  rw [hm]
  have hden : (0 : ℚ) < (hi : ℚ) - (lo : ℚ) := by
    rw [sub_pos]
    exact_mod_cast hlohi
  have hnorm0 : 0 ≤ normalize ev.score lo hi := by
    unfold normalize
    apply div_nonneg _ hden.le
    linarith
  have hnorm1 : normalize ev.score lo hi ≤ 1 := by
    unfold normalize
    rw [div_le_one hden]
    linarith
  refine ⟨mul_nonneg hw.le hnorm0, ?_, hw⟩
  calc c.weight * normalize ev.score lo hi ≤ c.weight * 1 :=
        mul_le_mul_of_nonneg_left hnorm1 hw.le
    _ = c.weight := mul_one c.weight

/-- Claim C3: the aggregator computes the spec formula
overall_max_score * (sum of weight times normalized score) / (sum of
weights), the sums ranging over evaluations matched in the rubric; and
whenever the evaluations are non-empty, all matched with positive weights
and in-range scores on proper ranges, the total lies within
[0, overall_max_score]. -/
theorem C3_total_score (evals : List CriterionEvaluation) (rubric : Rubric) :
    _compute_total_score evals rubric = spec_total_score evals rubric ∧
    (evals ≠ [] →
      (∀ ev ∈ evals, ∃ c, rubric.criteria.find? (fun x => x.id == ev.id) = some c ∧
        0 < c.weight ∧ ∃ lo hi, lookupRange c.scale = some (lo, hi) ∧ lo < hi ∧
          (lo : ℚ) ≤ ev.score ∧ ev.score ≤ (hi : ℚ)) →
      0 ≤ rubric.overall_max_score →
      0 ≤ _compute_total_score evals rubric ∧
        _compute_total_score evals rubric ≤ rubric.overall_max_score) := by
  have hfold : _compute_total_score evals rubric = spec_total_score evals rubric := by
    unfold _compute_total_score spec_total_score
    rw [foldl_aggStep]
    simp
  refine ⟨hfold, ?_⟩
  intro hne hall homs
  rw [hfold]
  set N := (evals.map (fun ev => (specTerm rubric ev).1)).sum with hN
  set W := (evals.map (fun ev => (specTerm rubric ev).2)).sum with hW
  have hbounds : ∀ ev ∈ evals, 0 ≤ (specTerm rubric ev).1 ∧
      (specTerm rubric ev).1 ≤ (specTerm rubric ev).2 ∧
      0 < (specTerm rubric ev).2 := fun ev hev => specTerm_bounds rubric ev (hall ev hev)
  have hN0 : 0 ≤ N := by
    apply List.sum_nonneg
    intro x hx
    obtain ⟨ev, hev, rfl⟩ := List.mem_map.mp hx
    exact (hbounds ev hev).1
  have hNW : N ≤ W := by
    apply List.sum_le_sum
    intro ev hev
    exact (hbounds ev hev).2.1
  have hW0 : 0 < W := by
    apply List.sum_pos
    · intro x hx
      obtain ⟨ev, hev, rfl⟩ := List.mem_map.mp hx
      exact (hbounds ev hev).2.2
    · simpa using hne
  unfold spec_total_score
  rw [← hN, ← hW]
  constructor
  · exact div_nonneg (mul_nonneg homs hN0) hW0.le
  · rw [div_le_iff₀ hW0]
    exact mul_le_mul_of_nonneg_left hNW homs

/-- Claim C3 witness: scores 8 of 10 and 4 of 5 at equal weights scale to
80 of 100, within bounds; scores 8 and 7 of 10 at equal weights give 75. -/
theorem C3_total_score_witness :
    _compute_total_score [evalA, evalB] mixRubric = 80 ∧
    _compute_total_score [evalC8, evalS7] sampleRubric = 75 ∧
    0 ≤ _compute_total_score [evalA, evalB] mixRubric ∧
    _compute_total_score [evalA, evalB] mixRubric ≤ mixRubric.overall_max_score := by
  have hb := (C3_total_score [evalA, evalB] mixRubric).2 (by simp)
    (by
      intro ev hev
      rcases List.mem_cons.mp hev with rfl | hev2
      · exact ⟨critA, rfl, by decide, 0, 10, rfl, by decide, by decide, by decide⟩
      · rcases List.mem_cons.mp hev2 with rfl | hev3
        · exact ⟨critB, rfl, by decide, 0, 5, rfl, by decide, by decide, by decide⟩
        · cases hev3)
    (by decide)
  refine ⟨?_, ?_, hb⟩
  · rw [(C3_total_score [evalA, evalB] mixRubric).1]
    simp [spec_total_score, specTerm, normalize, mixRubric, critA, critB, evalA, evalB,
      lookupRange, SCORE_SCALE_NUMERIC_RANGES, List.lookup, List.find?]
    norm_num
  · rw [(C3_total_score [evalC8, evalS7] sampleRubric).1]
    simp [spec_total_score, specTerm, normalize, sampleRubric, critClarity, critStructure,
      evalC8, evalS7, lookupRange, SCORE_SCALE_NUMERIC_RANGES, List.lookup, List.find?]
    norm_num
/-! ## Claim about JSON persistence -/


/-- Deserializing a serialized valid criterion restores it. -/
theorem criterion_roundtrip (c : Criterion) (hw : 0 < c.weight)
    (hs : c.scale ∈ VALID_SCALES) :
    Criterion.fromJson (Criterion.toJson c) = .ok c := by
  have h1 : Criterion.fromJson (Criterion.toJson c) =
      mkCriterion c.id c.name c.description c.weight c.scale := rfl
  rw [h1, mkCriterion_ok_of_valid hw hs]

/-- Deserializing a serialized list of valid criteria restores the list. -/
theorem mapM_fromJson_toJson (l : List Criterion)
    (h : ∀ c ∈ l, 0 < c.weight ∧ c.scale ∈ VALID_SCALES) :
    (l.map Criterion.toJson).mapM Criterion.fromJson = .ok l := by
  induction l with
  | nil => rfl
  | cons c t ih =>
    rw [List.map_cons, List.mapM_cons]
    obtain ⟨hw, hs⟩ := h c (List.mem_cons_self c t)
    rw [criterion_roundtrip c hw hs, ih (fun x hx => h x (List.mem_cons_of_mem c hx))]
    rfl

/-- Claim C7: loading the JSON produced by saving a valid Criterion or
Rubric restores it field-for-field, the Criterion serialized as the
five-field object and the Rubric as the six-key object of the persistence
contract. -/
theorem C7_json_roundtrip :
    (∀ c : Criterion, 0 < c.weight → c.scale ∈ VALID_SCALES →
      Criterion.fromJson (Criterion.toJson c) = .ok c ∧
      jsonKeys (Criterion.toJson c) =
        ["id", "name", "description", "weight", "scale"]) ∧
    (∀ r : Rubric, r.criteria ≠ [] → 0 < r.min_passing_score →
      r.min_passing_score ≤ r.overall_max_score →
      (∀ c ∈ r.criteria, 0 < c.weight ∧ c.scale ∈ VALID_SCALES) →
      Rubric.fromJson (Rubric.toJson r) = .ok r ∧
      jsonKeys (Rubric.toJson r) = ["task_id", "title", "description",
        "overall_max_score", "min_passing_score", "criteria"]) := by
  refine ⟨fun c hw hs => ⟨criterion_roundtrip c hw hs, rfl⟩, ?_⟩
  intro r h1 h2 h3 hall
  refine ⟨?_, rfl⟩
  have hr1 : Rubric.fromJson (Rubric.toJson r) =
      ((r.criteria.map Criterion.toJson).mapM Criterion.fromJson).bind
        (fun cs => mkRubric r.task_id r.title r.description r.overall_max_score
          r.min_passing_score cs) := rfl
  rw [hr1, mapM_fromJson_toJson r.criteria hall]
  show mkRubric r.task_id r.title r.description r.overall_max_score
    r.min_passing_score r.criteria = .ok r
  rw [mkRubric_ok_of_valid h1 h2 h3]

/-- Claim C7 witness: the sample criterion and rubric survive the JSON
round trip with the contractual key sets. -/
theorem C7_json_roundtrip_witness :
    Criterion.fromJson (Criterion.toJson critClarity) = .ok critClarity ∧
    jsonKeys (Criterion.toJson critClarity) =
      ["id", "name", "description", "weight", "scale"] ∧
    Rubric.fromJson (Rubric.toJson sampleRubric) = .ok sampleRubric ∧
    jsonKeys (Rubric.toJson sampleRubric) = ["task_id", "title", "description",
      "overall_max_score", "min_passing_score", "criteria"] := by
  obtain ⟨hc1, hc2⟩ := C7_json_roundtrip.1 critClarity (by decide) (by decide)
  obtain ⟨hr1, hr2⟩ := C7_json_roundtrip.2 sampleRubric (by decide) (by decide)
    (by decide) (by decide)
  exact ⟨hc1, hc2, hr1, hr2⟩

/-! ## Claim about Drive file-id extraction -/

/-- Claim C10: extract_drive_file_id applies its three patterns in fixed
precedence order (a /drive/ path segment, then an id query parameter, then
a /file/d/ path segment), returns the first match, and returns none exactly
when no pattern matches; in particular a /drive/ segment wins over an id
parameter. -/
theorem C10_extract_precedence (url : String) :
    (∀ cap, searchCapture "/drive/".data url.data = some cap →
      extract_drive_file_id url = some (String.mk cap)) ∧
    (searchCapture "/drive/".data url.data = none →
      ∀ v, getQueryParam (queryOf url.data) "id".data = some v →
        extract_drive_file_id url = some (String.mk v)) ∧
    (searchCapture "/drive/".data url.data = none →
      getQueryParam (queryOf url.data) "id".data = none →
      extract_drive_file_id url =
        (searchCapture "/file/d/".data url.data).map String.mk) ∧
    (extract_drive_file_id url = none ↔
      (searchCapture "/drive/".data url.data = none ∧
       getQueryParam (queryOf url.data) "id".data = none ∧
       searchCapture "/file/d/".data url.data = none)) := by
  refine ⟨?_, ?_, ?_, ?_⟩
  · intro cap h
    simp [extract_drive_file_id, h]
  · intro h1 v h2
    simp [extract_drive_file_id, h1, h2]
  · intro h1 h2
    simp [extract_drive_file_id, h1, h2]
  · unfold extract_drive_file_id
    cases h1 : searchCapture "/drive/".data url.data with
    | some cap => simp [h1]
    | none =>
      cases h2 : getQueryParam (queryOf url.data) "id".data with
      | some v => simp [h2]
      | none =>
        cases h3 : searchCapture "/file/d/".data url.data with
        | some cap => simp [h3]
        | none => simp [h3]

/-- Claim C10 witness: a URL holding both a /drive/ segment and an id
parameter yields the /drive/ id, a pure id URL yields the parameter value,
and a URL matching no pattern yields none. -/
theorem C10_extract_precedence_witness :
    extract_drive_file_id "https://colab.research.google.com/drive/AAA17?id=BBB" =
      some "AAA17" ∧
    extract_drive_file_id "https://drive.google.com/open?id=XYZ123" =
      some "XYZ123" ∧
    extract_drive_file_id "https://example.com/nothing" = none :=
  ⟨(C10_extract_precedence
      "https://colab.research.google.com/drive/AAA17?id=BBB").1
      "AAA17".data (by decide),
   (C10_extract_precedence "https://drive.google.com/open?id=XYZ123").2.1
      (by decide) "XYZ123".data (by decide),
   (C10_extract_precedence "https://example.com/nothing").2.2.2.mpr
      ⟨by decide, by decide, by decide⟩⟩

end TaskGrader
